import Mathlib

/-
Shallow embedding of the core data pipeline
(`src/core/data_pipeline.py`): validation rule sets, cleaning chains,
feature transforms, the per-record pipeline orchestrator and the batch
runner.  Records are association lists of field names to integer values;
a table is an ordered list of named columns (mirroring the single-row
DataFrame built from a record).  Python callables that may raise are
embedded as functions into `Except Err`; the absence of try/except in
the source shows up as plain monadic propagation.  Stub storage calls
(`save_raw_data`, `save_processed_data`, `save_features`,
`feature_store.apply`, `load_data`) are modelled as events appended to a
write trace at exactly the program points where the source awaits them.
Every stateful method returns `(Except Err result) × newState`, so state
mutations that happen before an exception (e.g. the raw-zone write)
persist, as they do in Python.
-/

set_option autoImplicit false

namespace DataPipelineSpec

abbrev Field := String
abbrev Value := Int
abbrev Err := String

/-- A record: a field-to-value mapping, as an association list in key
insertion order (Python dict). -/
abbrev Record := List (Field × Value)

/-- A table: ordered named columns, each a list of row values
(mirrors a pandas DataFrame). -/
abbrev Table := List (Field × List Value)

/-- A validation predicate registered for a field; may raise. -/
abbrev Rule := Value → Except Err Bool

/-- A cleaning step, `Table → Table`; may raise. -/
abbrev CleaningStep := Table → Except Err Table

/-- A feature transform producing one derived column; may raise. -/
abbrev Transform := Table → Except Err (List Value)

/-- First-match lookup of a field in a record (`field in data` /
`data[field]`). -/
def recLookup (d : Record) (f : Field) : Option Value :=
  match d with
  | [] => none
  | (g, v) :: rest => if g = f then some v else recLookup rest f

/-- Column names of a table, in order (`df.columns.tolist()`). -/
def tableCols (t : Table) : List Field :=
  t.map (·.1)

/-- Column lookup in a table. -/
def colOf (t : Table) (n : Field) : Option (List Value) :=
  match t with
  | [] => none
  | (g, c) :: rest => if g = n then some c else colOf rest n

/-- `features[name] = col`: replace the column in place if the name
exists, else append it as the last column (pandas column assignment). -/
def setColumn (t : Table) (name : Field) (col : List Value) : Table :=
  if name ∈ tableCols t then
    t.map (fun p => if p.1 = name then (name, col) else p)
  else
    t ++ [(name, col)]

/-- `pd.DataFrame([data])`: a single-row table with the record's
columns in insertion order. -/
def recordToTable (d : Record) : Table :=
  d.map (fun p => (p.1, [p.2]))

/-- The dict returned by `DataValidation.validate_data`. -/
structure ValidationResult where
  is_valid : Bool
  invalid_fields : List Field
  quarantined : Bool
deriving DecidableEq, Repr

/-- State of the `DataValidation` component: registered rules keyed by
field (dict of lists, key insertion order), and the quarantine list. -/
structure DataValidation where
  validation_rules : List (Field × List Rule)
  quarantine_data : List Record

/-- The fields that currently have at least one registered rule, in
registration order. -/
def DataValidation.ruleFields (dv : DataValidation) : List Field :=
  dv.validation_rules.map (·.1)

/-- `add_validation_rule`: appends the rule to the field's list,
creating the list on first registration (duplicates are kept). -/
def DataValidation.add_validation_rule (dv : DataValidation) (field : Field)
    (r : Rule) : DataValidation :=
  if field ∈ dv.ruleFields then
    { dv with validation_rules :=
        (dv.validation_rules.map
          (fun p => if p.1 = field then (p.1, p.2 ++ [r]) else p)) }
  else
    { dv with validation_rules := dv.validation_rules ++ [(field, [r])] }

/-- Inner rule loop of `validate_data` for one field: every rule runs
(no short-circuit); each failing rule appends the field name once. A
raising rule aborts with its error, as in the source (no try/except). -/
def applyRules (field : Field) (v : Value) :
    List Rule → Except Err (List Field)
  | [] => .ok []
  | r :: rs =>
    match r v with
    | .error e => .error e
    | .ok b =>
      match applyRules field v rs with
      | .error e => .error e
      | .ok fs => .ok (if b then fs else field :: fs)

/-- Outer field loop of `validate_data`: fields with no rule or absent
from the record are skipped; invalid-field occurrences accumulate in
iteration order. -/
def validateFields (d : Record) :
    List (Field × List Rule) → Except Err (List Field)
  | [] => .ok []
  | (field, rules) :: rest =>
    match recLookup d field with
    | none => validateFields d rest
    | some v =>
      match applyRules field v rules with
      | .error e => .error e
      | .ok fs =>
        match validateFields d rest with
        | .error e => .error e
        | .ok fs2 => .ok (fs ++ fs2)

/-- The pure part of `validate_data`: the `validation_results` dict as
built by the loops (`is_valid` false exactly when some rule failed,
`quarantined` set together with it). -/
def validateOutcome (rules : List (Field × List Rule)) (d : Record) :
    Except Err ValidationResult :=
  match validateFields d rules with
  | .error e => .error e
  | .ok fs =>
    .ok (if fs.isEmpty then ⟨true, fs, false⟩ else ⟨false, fs, true⟩)

/-- `validate_data`: returns the result dict and appends the record to
the quarantine list when invalid.  A raising rule propagates before the
quarantine append is reached, leaving the state unchanged. -/
def DataValidation.validate_data (dv : DataValidation) (d : Record) :
    Except Err ValidationResult × DataValidation :=
  match validateOutcome dv.validation_rules d with
  | .error e => (.error e, dv)
  | .ok v =>
    if v.is_valid then (.ok v, dv)
    else (.ok v, { dv with quarantine_data := dv.quarantine_data ++ [d] })

/-- State of the `DataCleaning` component. -/
structure DataCleaning where
  cleaning_steps : List CleaningStep

/-- `add_cleaning_step`. -/
def DataCleaning.add_cleaning_step (c : DataCleaning) (s : CleaningStep) :
    DataCleaning :=
  { c with cleaning_steps := c.cleaning_steps ++ [s] }

/-- The fold inside `clean_data`: steps compose left to right; a
raising step propagates. -/
def runSteps : List CleaningStep → Table → Except Err Table
  | [], t => .ok t
  | s :: rest, t =>
    match s t with
    | .error e => .error e
    | .ok t2 => runSteps rest t2

/-- `clean_data`. -/
def DataCleaning.clean_data (c : DataCleaning) (t : Table) :
    Except Err Table :=
  runSteps c.cleaning_steps t

/-- State of the `FeatureEngineering` component: transforms keyed by
feature name (a dict: one function per name, insertion order). -/
structure FeatureEngineering where
  feature_transformations : List (Field × Transform)

/-- Registered feature names in dict order. -/
def FeatureEngineering.featureNames (fe : FeatureEngineering) :
    List Field :=
  fe.feature_transformations.map (·.1)

/-- `add_transformation`: dict assignment — re-registering an existing
name replaces its function in place; a new name is appended. -/
def FeatureEngineering.add_transformation (fe : FeatureEngineering)
    (name : Field) (f : Transform) : FeatureEngineering :=
  if name ∈ fe.featureNames then
    { fe with feature_transformations :=
        (fe.feature_transformations.map
          (fun p => if p.1 = name then (name, f) else p)) }
  else
    { fe with feature_transformations :=
        fe.feature_transformations ++ [(name, f)] }

/-- The loop inside `create_features`: each transform sees the table
with all earlier feature columns already assigned; a raising transform
propagates. -/
def createFeatures : List (Field × Transform) → Table → Except Err Table
  | [], t => .ok t
  | (name, f) :: rest, t =>
    match f t with
    | .error e => .error e
    | .ok col => createFeatures rest (setColumn t name col)

/-- `create_features`. -/
def FeatureEngineering.create_features (fe : FeatureEngineering)
    (t : Table) : Except Err Table :=
  createFeatures fe.feature_transformations t

/-- One storage-side effect performed by the pipeline, at the program
point where the source awaits the corresponding stub. -/
inductive WriteEvent where
  | rawWrite (source : String) (d : Record)
  | processedWrite (name : String)
  | featureWrite (name : String)
  | featureStoreSave (view : String)
  | warehouseLoad (table : String)
deriving DecidableEq, Repr

/-- The dict returned by `process_data` — either the bare validation
dict (no `status` key, the quarantine return) or the success dict with
`features_created`. -/
inductive ProcessResult where
  | invalid (validation : ValidationResult)
  | success (validation : ValidationResult) (features_created : List Field)
deriving DecidableEq, Repr

/-- `r.get('status') == 'success'` on a `process_data` result. -/
def isSuccess : ProcessResult → Bool
  | .success _ _ => true
  | .invalid _ => false

/-- State of the `DataPipeline` orchestrator, with the write trace
standing in for the data lake / feature store / warehouse sinks. -/
structure DataPipeline where
  validation : DataValidation
  cleaning : DataCleaning
  feature_engineering : FeatureEngineering
  trace : List WriteEvent

/-- The registered configuration of a pipeline (rules, steps,
transforms) — everything `process_data`'s result can depend on. -/
def DataPipeline.config (p : DataPipeline) :
    List (Field × List Rule) × List CleaningStep × List (Field × Transform) :=
  (p.validation.validation_rules, p.cleaning.cleaning_steps,
    p.feature_engineering.feature_transformations)

/-- `process_data`: raw write, validate (early return when invalid),
clean, processed write, feature engineering, feature/feature-store
writes, warehouse load.  Errors raised by steps propagate; state
changes already made persist. -/
def DataPipeline.process_data (p : DataPipeline) (d : Record)
    (source : String) : Except Err ProcessResult × DataPipeline :=
  let p1 : DataPipeline :=
    { p with trace := p.trace ++ [.rawWrite source d] }
  match p1.validation.validate_data d with
  | (.error e, val2) => (.error e, { p1 with validation := val2 })
  | (.ok v, val2) =>
    let p2 : DataPipeline := { p1 with validation := val2 }
    if v.is_valid then
      match runSteps p2.cleaning.cleaning_steps (recordToTable d) with
      | .error e => (.error e, p2)
      | .ok cleaned =>
        let p3 : DataPipeline :=
          { p2 with trace :=
              p2.trace ++ [.processedWrite (source ++ "_processed")] }
        match createFeatures
            p3.feature_engineering.feature_transformations cleaned with
        | .error e => (.error e, p3)
        | .ok features =>
          let p4 : DataPipeline :=
            { p3 with trace := p3.trace ++
                [.featureWrite (source ++ "_features"),
                 .featureStoreSave (source ++ "_feature_view"),
                 .warehouseLoad source] }
          (.ok (.success v (tableCols features)), p4)
    else
      (.ok (.invalid v), p2)

/-- The loop inside `process_batch`: each record runs through
`process_data`; there is no try/except, so a raising record aborts the
loop and the error propagates (results gathered so far are dropped). -/
def processRecords (p : DataPipeline) (records : List Record)
    (source : String) : Except Err (List ProcessResult) × DataPipeline :=
  match records with
  | [] => (.ok [], p)
  | d :: rest =>
    match p.process_data d source with
    | (.error e, p2) => (.error e, p2)
    | (.ok r, p2) =>
      match processRecords p2 rest source with
      | (.error e, p3) => (.error e, p3)
      | (.ok rs, p3) => (.ok (r :: rs), p3)

/-- The counts dict returned by `process_batch`. -/
structure BatchResult where
  processed : Nat
  successful : Nat
  failed : Nat
deriving DecidableEq, Repr

/-- `process_batch`: run every record, then count results with
`status == 'success'` and the rest. -/
def process_batch (p : DataPipeline) (records : List Record)
    (source : String) : Except Err BatchResult × DataPipeline :=
  match processRecords p records source with
  | (.error e, p2) => (.error e, p2)
  | (.ok rs, p2) =>
    (.ok ⟨rs.length, rs.countP isSuccess,
          rs.countP (fun r => !isSuccess r)⟩, p2)

/-- `process_stream`: a single `process_data` call. -/
def process_stream (p : DataPipeline) (d : Record) (source : String) :
    Except Err ProcessResult × DataPipeline :=
  p.process_data d source

/-- The result of `process_data` as a function of the configuration
only: used to show the result is independent of quarantine and trace
state. -/
def processOutcome (rules : List (Field × List Rule))
    (steps : List CleaningStep) (fts : List (Field × Transform))
    (d : Record) : Except Err ProcessResult :=
  match validateOutcome rules d with
  | .error e => .error e
  | .ok v =>
    if v.is_valid then
      match runSteps steps (recordToTable d) with
      | .error e => .error e
      | .ok cleaned =>
        match createFeatures fts cleaned with
        | .error e => .error e
        | .ok features => .ok (.success v (tableCols features))
    else
      .ok (.invalid v)

/- Concrete instances used by witnesses and counterexamples. -/

/-- Rule `price >= 0`. -/
def priceRule : Rule := fun v => .ok (decide (0 ≤ v))

/-- A predicate that raises on every input. -/
def boomRule : Rule := fun _ => .error "boom"

/-- A predicate accepting every value. -/
def alwaysTrue : Rule := fun _ => .ok true

/-- A predicate rejecting every value. -/
def alwaysFalse : Rule := fun _ => .ok false

/-- Transform `qty_doubled = qty * 2`. -/
def qtyDoubled : Transform := fun t =>
  match colOf t "qty" with
  | some col => .ok (col.map (fun v => v * 2))
  | none => .error "missing qty"

/-- A transform that raises on negative `qty` (malformed input). -/
def qtyStrict : Transform := fun t =>
  match colOf t "qty" with
  | some col =>
    if col.all (fun v => decide (0 ≤ v)) then
      .ok (col.map (fun v => v * 2))
    else
      .error "negative qty"
  | none => .error "missing qty"

/-- A pipeline with no registered rules, steps or transforms. -/
def emptyPipeline : DataPipeline :=
  ⟨⟨[], []⟩, ⟨[]⟩, ⟨[]⟩, []⟩

/-- Empty pipeline plus the single transform `qty_doubled`. -/
def qtyPipeline : DataPipeline :=
  { emptyPipeline with feature_engineering := ⟨[("qty_doubled", qtyDoubled)]⟩ }

/-- Empty pipeline plus a transform that raises on negative `qty`. -/
def strictPipeline : DataPipeline :=
  { emptyPipeline with feature_engineering := ⟨[("qty_doubled", qtyStrict)]⟩ }

/-- Empty pipeline plus the rule `price >= 0`. -/
def pricePipeline : DataPipeline :=
  { emptyPipeline with validation := ⟨[("price", [priceRule])], []⟩ }

/-- A validation state with two copies of `price >= 0` registered. -/
def dvTwoRules : DataValidation :=
  ⟨[("price", [priceRule, priceRule])], []⟩

/-- A validation state whose only rule raises. -/
def dvBoom : DataValidation :=
  ⟨[("price", [boomRule])], []⟩

/-- Scenario C batch: five records, two invalid under `price >= 0`. -/
def batchC : List Record :=
  [[("price", 5)], [("price", -1)], [("price", 3)],
   [("price", -2)], [("price", 7)]]

/- Helper lemmas. -/

theorem validate_data_eq (dv : DataValidation) (d : Record) :
    dv.validate_data d
      = (validateOutcome dv.validation_rules d,
         { dv with quarantine_data :=
             dv.quarantine_data ++
               (match validateOutcome dv.validation_rules d with
                | .ok v => if v.is_valid then [] else [d]
                | .error _ => []) }) := by
  unfold DataValidation.validate_data
  cases validateOutcome dv.validation_rules d with
  | error e => simp
  | ok v => by_cases h : v.is_valid <;> simp [h]

theorem validate_data_fst (dv : DataValidation) (d : Record) :
    (dv.validate_data d).fst = validateOutcome dv.validation_rules d := by
  rw [validate_data_eq]

theorem validateFields_absent (d : Record) :
    ∀ rules : List (Field × List Rule),
      (∀ pr ∈ rules, recLookup d pr.1 = none) →
      validateFields d rules = .ok [] := by
  intro rules
  induction rules with
  | nil => intro _; rfl
  | cons pr rest ih =>
    intro h
    obtain ⟨field, rs⟩ := pr
    have hf : recLookup d field = none := h ⟨field, rs⟩ (List.mem_cons_self _ _)
    have hr : ∀ q ∈ rest, recLookup d q.1 = none :=
      fun q hq => h q (List.mem_cons_of_mem _ hq)
    simp [validateFields, hf, ih hr]

/-- C3: the spec claims a raising predicate is treated as a failed rule
and a normal ValidationResult is returned; in the code the exception
propagates out of `validate_data`, so the result is an error, not a
ValidationResult. -/
theorem c3_counterexample :
    (dvBoom.validate_data [("price", 5)]).fst = Except.error "boom" := rfl

theorem applyRules_error (field : Field) (v : Value) :
    ∀ (rules : List Rule) (r : Rule) (e : Err),
      r ∈ rules → r v = Except.error e →
      ∃ e2, applyRules field v rules = Except.error e2 := by
  intro rules
  induction rules with
  | nil => intro r e hr _; cases hr
  | cons r0 rest ih =>
    intro r e hr herr
    cases h0 : r0 v with
    | error e0 => exact ⟨e0, by simp [applyRules, h0]⟩
    | ok b =>
      rcases List.mem_cons.mp hr with heq | hmem
      · rw [heq] at herr; rw [herr] at h0; cases h0
      · obtain ⟨e2, h2⟩ := ih r e hmem herr
        exact ⟨e2, by simp [applyRules, h0, h2]⟩

theorem validateFields_error (d : Record) :
    ∀ (dvr : List (Field × List Rule)) (field : Field)
      (rules : List Rule) (v : Value) (e : Err),
      (field, rules) ∈ dvr → recLookup d field = some v →
      applyRules field v rules = Except.error e →
      ∃ e2, validateFields d dvr = Except.error e2 := by
  intro dvr
  induction dvr with
  | nil => intro field rules v e hmem _ _; cases hmem
  | cons pr rest ih =>
    intro field rules v e hmem hlook herr
    obtain ⟨f0, rs0⟩ := pr
    rcases List.mem_cons.mp hmem with heq | hmem2
    · obtain ⟨hf, hr⟩ := Prod.mk.injEq .. ▸ heq.symm
      subst hf
      subst hr
      exact ⟨e, by simp [validateFields, hlook, herr]⟩
    · cases hl0 : recLookup d f0 with
      | none =>
        obtain ⟨e2, h2⟩ := ih field rules v e hmem2 hlook herr
        exact ⟨e2, by simp [validateFields, hl0, h2]⟩
      | some v0 =>
        cases ha0 : applyRules f0 v0 rs0 with
        | error e0 => exact ⟨e0, by simp [validateFields, hl0, ha0]⟩
        | ok fs0 =>
          obtain ⟨e2, h2⟩ := ih field rules v e hmem2 hlook herr
          exact ⟨e2, by simp [validateFields, hl0, ha0, h2]⟩

/-- C3 (amended): a registered predicate that raises on the record's
field value is not treated as a failed rule — `validate_data`
propagates an error to the caller instead of returning a
ValidationResult, and the record is not quarantined (the validation
state is unchanged). -/
theorem c3_rule_error_propagates (dv : DataValidation) (d : Record)
    (field : Field) (rules : List Rule) (r : Rule) (v : Value) (e : Err)
    (hmem : (field, rules) ∈ dv.validation_rules)
    (hlook : recLookup d field = some v)
    (hr : r ∈ rules)
    (herr : r v = Except.error e) :
    (∃ e2, (dv.validate_data d).fst = Except.error e2)
      ∧ (dv.validate_data d).snd = dv := by
  obtain ⟨e1, h1⟩ := applyRules_error field v rules r e hr herr
  obtain ⟨e2, h2⟩ := validateFields_error d dv.validation_rules field
    rules v e1 hmem hlook h1
  have hout : validateOutcome dv.validation_rules d = Except.error e2 := by
    unfold validateOutcome
    rw [h2]
  rw [validate_data_eq, hout]
  exact ⟨⟨e2, rfl⟩, by simp⟩

/-- C3 witness. -/
theorem c3_rule_error_propagates_witness :
    (∃ e2, (dvBoom.validate_data [("price", 5)]).fst = Except.error e2)
      ∧ (dvBoom.validate_data [("price", 5)]).snd = dvBoom :=
  c3_rule_error_propagates dvBoom [("price", 5)] "price" [boomRule]
    boomRule 5 "boom" (List.mem_cons_self _ _) rfl
    (List.mem_cons_self _ _) rfl

/-- C5: on every non-raising `validate_data` call the returned result
has `quarantined = true` iff `is_valid = false`, and the record is
appended to the quarantine list exactly once when invalid (and not at
all when valid), even when several rules fail. -/
theorem c5_quarantine_iff_invalid (dv : DataValidation) (d : Record)
    (vres : ValidationResult) (dv2 : DataValidation)
    (h : dv.validate_data d = (.ok vres, dv2)) :
    (vres.quarantined = true ↔ vres.is_valid = false)
      ∧ dv2.quarantine_data
          = (if vres.is_valid then dv.quarantine_data
             else dv.quarantine_data ++ [d]) := by
  rw [validate_data_eq] at h
  obtain ⟨h1, h2⟩ := Prod.mk.injEq .. ▸ h
  cases hv : validateOutcome dv.validation_rules d with
  | error e => rw [hv] at h1; cases h1
  | ok v =>
    rw [hv] at h1 h2
    cases h1
    subst h2
    unfold validateOutcome at hv
    cases hfs : validateFields d dv.validation_rules with
    | error e => rw [hfs] at hv; cases hv
    | ok fs =>
      rw [hfs] at hv
      by_cases hemp : fs.isEmpty <;> simp [hemp] at hv <;> cases hv <;>
        simp

/-- C5 witness: two failing rules on one field still quarantine the
record exactly once. -/
theorem c5_quarantine_iff_invalid_witness :
    (((⟨false, ["price", "price"], true⟩ : ValidationResult).quarantined = true
        ↔ (⟨false, ["price", "price"], true⟩ : ValidationResult).is_valid = false)
      ∧ (dvTwoRules.validate_data [("price", -5)]).snd.quarantine_data
          = (if (⟨false, ["price", "price"], true⟩ : ValidationResult).is_valid
             then dvTwoRules.quarantine_data
             else dvTwoRules.quarantine_data ++ [[("price", -5)]])) :=
  c5_quarantine_iff_invalid dvTwoRules [("price", -5)] _ _ rfl

/-- C6: a record none of whose present fields has a registered rule
validates successfully: `is_valid = true`, no invalid fields, not
quarantined, and the validation state is unchanged. -/
theorem c6_no_rule_never_flagged (dv : DataValidation) (d : Record)
    (h : ∀ pr ∈ dv.validation_rules, recLookup d pr.1 = none) :
    dv.validate_data d = (.ok ⟨true, [], false⟩, dv) := by
  have hout : validateOutcome dv.validation_rules d = .ok ⟨true, [], false⟩ := by
    unfold validateOutcome
    rw [validateFields_absent d dv.validation_rules h]
    rfl
  rw [validate_data_eq, hout]
  simp

/-- C6 witness: `qty` has no registered rule in the price pipeline. -/
theorem c6_no_rule_never_flagged_witness :
    DataValidation.validate_data ⟨[("price", [priceRule])], []⟩ [("qty", 10)]
      = (.ok ⟨true, [], false⟩, ⟨[("price", [priceRule])], []⟩) :=
  c6_no_rule_never_flagged ⟨[("price", [priceRule])], []⟩ [("qty", 10)]
    (by intro pr hpr; rw [List.mem_singleton] at hpr; subst hpr; rfl)

theorem process_data_fst (p : DataPipeline) (d : Record) (src : String) :
    (p.process_data d src).fst
      = processOutcome p.validation.validation_rules
          p.cleaning.cleaning_steps
          p.feature_engineering.feature_transformations d := by
  cases hv : validateOutcome p.validation.validation_rules d with
  | error e =>
    simp [DataPipeline.process_data, processOutcome, validate_data_eq, hv]
  | ok v =>
    by_cases hval : v.is_valid
    · cases hc : runSteps p.cleaning.cleaning_steps (recordToTable d) with
      | error e =>
        simp [DataPipeline.process_data, processOutcome, validate_data_eq,
          hv, hval, hc]
      | ok cleaned =>
        cases hf : createFeatures
            p.feature_engineering.feature_transformations cleaned with
        | error e =>
          simp [DataPipeline.process_data, processOutcome, validate_data_eq,
            hv, hval, hc, hf]
        | ok features =>
          simp [DataPipeline.process_data, processOutcome, validate_data_eq,
            hv, hval, hc, hf]
    · simp [DataPipeline.process_data, processOutcome, validate_data_eq,
        hv, hval]

theorem process_data_preserves_config (p : DataPipeline) (d : Record)
    (src : String) :
    ((p.process_data d src).snd).validation.validation_rules
        = p.validation.validation_rules
      ∧ ((p.process_data d src).snd).cleaning = p.cleaning
      ∧ ((p.process_data d src).snd).feature_engineering
          = p.feature_engineering := by
  cases hv : validateOutcome p.validation.validation_rules d with
  | error e =>
    simp [DataPipeline.process_data, validate_data_eq, hv]
  | ok v =>
    by_cases hval : v.is_valid
    · cases hc : runSteps p.cleaning.cleaning_steps (recordToTable d) with
      | error e =>
        simp [DataPipeline.process_data, validate_data_eq, hv, hval, hc]
      | ok cleaned =>
        cases hf : createFeatures
            p.feature_engineering.feature_transformations cleaned with
        | error e =>
          simp [DataPipeline.process_data, validate_data_eq, hv, hval, hc, hf]
        | ok features =>
          simp [DataPipeline.process_data, validate_data_eq, hv, hval, hc, hf]
    · simp [DataPipeline.process_data, validate_data_eq, hv, hval]

/-- C8: two `process_data` calls on the same record from any two
pipeline states with the same registered configuration — in particular
the same pipeline at different times, with whatever quarantine and
trace state has accumulated in between — return the same result: the
same validation outcome and the same `features_created` list. -/
theorem c8_process_deterministic (p1 p2 : DataPipeline) (d : Record)
    (src : String) (h : p1.config = p2.config) :
    (p1.process_data d src).fst = (p2.process_data d src).fst := by
  unfold DataPipeline.config at h
  injection h with h1 h23
  injection h23 with h2 h3
  rw [process_data_fst, process_data_fst, h1, h2, h3]

/-- C8 witness: the second call runs from the state the first call left
behind (including its quarantine and trace growth). -/
theorem c8_process_deterministic_witness :
    (qtyPipeline.process_data [("qty", 10)] "pos").fst
      = ((qtyPipeline.process_data [("qty", 10)] "pos").snd.process_data
          [("qty", 10)] "pos").fst :=
  c8_process_deterministic qtyPipeline
    (qtyPipeline.process_data [("qty", 10)] "pos").snd
    [("qty", 10)] "pos" rfl

/-- C4: every `process_data` call appends the raw-zone write as the
first new trace event, before validation can quarantine the record;
and a call that returns the quarantine result appends nothing else —
no processed write, no feature write, no warehouse load. -/
theorem c4_raw_write_first (p : DataPipeline) (d : Record) (src : String)
    (r : Except Err ProcessResult) (p2 : DataPipeline)
    (h : p.process_data d src = (r, p2)) :
    (∃ rest, p2.trace = p.trace ++ WriteEvent.rawWrite src d :: rest)
      ∧ (∀ v, r = .ok (.invalid v) →
          p2.trace = p.trace ++ [WriteEvent.rawWrite src d]) := by
  have hsnd : p2 = (p.process_data d src).snd := by rw [h]
  have hfst : r = (p.process_data d src).fst := by rw [h]
  subst hsnd hfst
  cases hv : validateOutcome p.validation.validation_rules d with
  | error e =>
    simp [DataPipeline.process_data, validate_data_eq, hv]
  | ok v =>
    by_cases hval : v.is_valid
    · cases hc : runSteps p.cleaning.cleaning_steps (recordToTable d) with
      | error e =>
        simp [DataPipeline.process_data, validate_data_eq, hv, hval, hc]
      | ok cleaned =>
        cases hf : createFeatures
            p.feature_engineering.feature_transformations cleaned with
        | error e =>
          simp [DataPipeline.process_data, validate_data_eq, hv, hval, hc, hf]
        | ok features =>
          simp [DataPipeline.process_data, validate_data_eq, hv, hval, hc, hf]
    · simp [DataPipeline.process_data, validate_data_eq, hv, hval]

/-- C4 witness: a record failing `price >= 0` gets exactly one raw
write and nothing else. -/
theorem c4_raw_write_first_witness :
    (∃ rest, (pricePipeline.process_data [("price", -5)] "pos").snd.trace
        = pricePipeline.trace ++ WriteEvent.rawWrite "pos" [("price", -5)] :: rest)
      ∧ (∀ v, (pricePipeline.process_data [("price", -5)] "pos").fst
            = .ok (.invalid v) →
          (pricePipeline.process_data [("price", -5)] "pos").snd.trace
            = pricePipeline.trace
                ++ [WriteEvent.rawWrite "pos" [("price", -5)]]) :=
  c4_raw_write_first pricePipeline [("price", -5)] "pos" _ _ rfl

/-- C9: the spec claims `process_data` fails fast with a configuration
error when no rules or steps are registered; in the code there is no
such check — the empty configuration validates trivially and the call
returns a success result. -/
theorem c9_counterexample :
    (emptyPipeline.process_data [("qty", 10)] "pos").fst
      = .ok (.success ⟨true, [], false⟩ ["qty"]) := rfl

/-- C9 (amended): calling `process_data` with no registered rules,
cleaning steps or transforms silently processes the record as if the
empty configuration were valid, returning success with the record's own
columns. -/
theorem c9_empty_config_processes (d : Record) (src : String)
    (q : List Record) (tr : List WriteEvent) :
    (DataPipeline.process_data ⟨⟨[], q⟩, ⟨[]⟩, ⟨[]⟩, tr⟩ d src).fst
      = .ok (.success ⟨true, [], false⟩ (tableCols (recordToTable d))) := by
  rw [process_data_fst]
  simp [processOutcome, validateOutcome, validateFields, runSteps,
    createFeatures]

theorem tableCols_setColumn_new (t : Table) (name : Field)
    (col : List Value) (h : name ∉ tableCols t) :
    tableCols (setColumn t name col) = tableCols t ++ [name] := by
  unfold setColumn
  rw [if_neg h]
  simp [tableCols]

theorem createFeatures_cols :
    ∀ (fts : List (Field × Transform)) (t t2 : Table),
      (∀ n ∈ fts.map (·.1), n ∉ tableCols t) →
      (fts.map (·.1)).Nodup →
      createFeatures fts t = .ok t2 →
      tableCols t2 = tableCols t ++ fts.map (·.1) := by
  intro fts
  induction fts with
  | nil =>
    intro t t2 _ _ h
    cases h
    simp
  | cons pr rest ih =>
    intro t t2 hfresh hnodup h
    obtain ⟨name, f⟩ := pr
    unfold createFeatures at h
    cases hf : f t with
    | error e => rw [hf] at h; cases h
    | ok col =>
      rw [hf] at h
      have hn : name ∉ tableCols t := hfresh name (List.mem_cons_self _ _)
      have hcols := tableCols_setColumn_new t name col hn
      have hname_rest : name ∉ rest.map (·.1) :=
        (List.nodup_cons.mp hnodup).1
      have hfresh2 : ∀ n ∈ rest.map (·.1),
          n ∉ tableCols (setColumn t name col) := by
        intro n hnr
        rw [hcols]
        intro hmem
        rcases List.mem_append.mp hmem with hin | hin
        · exact hfresh n (List.mem_cons_of_mem _ hnr) hin
        · rw [List.mem_singleton] at hin
          exact hname_rest (hin ▸ hnr)
      have hnodup2 : (rest.map (·.1)).Nodup :=
        (List.nodup_cons.mp hnodup).2
      have hrec := ih (setColumn t name col) t2 hfresh2 hnodup2 h
      rw [hrec, hcols]
      simp

/-- C1 (amended): for a record that passes validation, the
`features_created` list in the success result is the full column list
of the feature table — the cleaned record's pre-existing columns
followed by the registered transform names in registration order — not
only the newly added feature columns. -/
theorem c1_features_created_all_columns (p : DataPipeline) (d : Record)
    (src : String) (v : ValidationResult) (fc : List Field)
    (p2 : DataPipeline) (cleaned : Table)
    (hclean : runSteps p.cleaning.cleaning_steps (recordToTable d)
        = .ok cleaned)
    (hfresh : ∀ n ∈ p.feature_engineering.featureNames,
        n ∉ tableCols cleaned)
    (hnodup : p.feature_engineering.featureNames.Nodup)
    (hrun : p.process_data d src = (.ok (.success v fc), p2)) :
    fc = tableCols cleaned ++ p.feature_engineering.featureNames := by
  have hfst : (p.process_data d src).fst = .ok (.success v fc) := by
    rw [hrun]
  rw [process_data_fst] at hfst
  cases hv : validateOutcome p.validation.validation_rules d with
  | error e => simp [processOutcome, hv] at hfst
  | ok v0 =>
    by_cases hval : v0.is_valid
    · cases hf : createFeatures
          p.feature_engineering.feature_transformations cleaned with
      | error e => simp [processOutcome, hv, hval, hclean, hf] at hfst
      | ok features =>
        simp [processOutcome, hv, hval, hclean, hf] at hfst
        rw [← hfst.2]
        exact createFeatures_cols
          p.feature_engineering.feature_transformations cleaned features
          hfresh hnodup hf
    · simp [processOutcome, hv, hval] at hfst

/-- C1 counterexample: with one registered transform on a record with
one input column, `features_created` is the full column list, which
contains the pre-existing input column — not just the new feature. -/
theorem c1_counterexample :
    (qtyPipeline.process_data [("qty", 10)] "pos").fst
        = .ok (.success ⟨true, [], false⟩ ["qty", "qty_doubled"])
      ∧ (["qty", "qty_doubled"] : List Field) ≠ ["qty_doubled"]
      ∧ "qty" ∈ (["qty", "qty_doubled"] : List Field) :=
  ⟨rfl, by decide, by decide⟩

/-- C1 witness. -/
theorem c1_features_created_all_columns_witness :
    (["qty", "qty_doubled"] : List Field)
      = tableCols (recordToTable [("qty", 10)])
        ++ qtyPipeline.feature_engineering.featureNames :=
  c1_features_created_all_columns qtyPipeline [("qty", 10)] "pos"
    ⟨true, [], false⟩ ["qty", "qty_doubled"] _
    (recordToTable [("qty", 10)]) rfl (by decide) (by decide) rfl

theorem processRecords_append_error :
    ∀ (rs1 : List Record) (p : DataPipeline) (src : String)
      (rs : List ProcessResult) (p1 : DataPipeline) (d : Record)
      (rs2 : List Record) (e : Err) (p2 : DataPipeline),
      processRecords p rs1 src = (.ok rs, p1) →
      p1.process_data d src = (.error e, p2) →
      processRecords p (rs1 ++ d :: rs2) src = (.error e, p2) := by
  intro rs1
  induction rs1 with
  | nil =>
    intro p src rs p1 d rs2 e p2 h1 h2
    obtain ⟨ha, hb⟩ := Prod.mk.injEq .. ▸ h1
    subst hb
    simp [processRecords, h2]
  | cons a rest ih =>
    intro p src rs p1 d rs2 e p2 h1 h2
    unfold processRecords at h1
    cases ha : p.process_data a src with
    | mk fa pa =>
      rw [ha] at h1
      cases fa with
      | error e2 => simp at h1
      | ok r =>
        simp only [] at h1
        cases hb : processRecords pa rest src with
        | mk fb pb =>
          simp only [hb] at h1
          cases fb with
          | error e2 => simp at h1
          | ok rsb =>
            obtain ⟨hc, hd⟩ := Prod.mk.injEq .. ▸ h1
            subst hd
            have hrec := ih pa src rsb pb d rs2 e p2 hb h2
            simp [processRecords, ha, hrec]

/-- C2: the spec claims that one record's fatal error inside
`process_batch` is caught and counted as failed while the rest of the
batch continues; in the code there is no try/except, so the error
propagates and the batch aborts — here the first record's raising
transform prevents the second, valid record from being processed. -/
theorem c2_counterexample :
    (process_batch strictPipeline [[("qty", -1)], [("qty", 10)]] "pos").fst
        = .error "negative qty"
      ∧ (process_batch strictPipeline [[("qty", -1)], [("qty", 10)]] "pos").fst
          ≠ .ok ⟨2, 1, 1⟩ :=
  ⟨rfl, fun h => Except.noConfusion h⟩

/-- C2 (amended): if one record of a batch raises a fatal error during
processing, the error propagates out of `process_batch`; the records
after it are never processed and no counts are returned. -/
theorem c2_record_error_aborts_batch (rs1 : List Record) (d : Record)
    (rs2 : List Record) (src : String) (p p1 p2 : DataPipeline)
    (rs : List ProcessResult) (e : Err)
    (h1 : processRecords p rs1 src = (.ok rs, p1))
    (h2 : p1.process_data d src = (.error e, p2)) :
    (process_batch p (rs1 ++ d :: rs2) src).fst = .error e := by
  have hpr := processRecords_append_error rs1 p src rs p1 d rs2 e p2 h1 h2
  simp [process_batch, hpr]

/-- C2 witness: the raising record sits in the middle of the batch. -/
theorem c2_record_error_aborts_batch_witness :
    (process_batch strictPipeline
        ([[("qty", 10)]] ++ [("qty", -1)] :: [[("qty", 5)]]) "pos").fst
      = .error "negative qty" :=
  c2_record_error_aborts_batch [[("qty", 10)]] [("qty", -1)] [[("qty", 5)]]
    "pos" strictPipeline _ _ _ "negative qty" rfl rfl

theorem countP_bool_sum {α : Type} (q : α → Bool) (l : List α) :
    l.countP q + l.countP (fun a => !q a) = l.length := by
  induction l with
  | nil => rfl
  | cons a rest ih =>
    cases hq : q a <;> simp [List.countP_cons, hq, ← ih] <;> omega

theorem processRecords_ok_length :
    ∀ (records : List Record) (p : DataPipeline) (src : String)
      (rs : List ProcessResult) (p2 : DataPipeline),
      processRecords p records src = (.ok rs, p2) →
      rs.length = records.length := by
  intro records
  induction records with
  | nil =>
    intro p src rs p2 h
    obtain ⟨ha, _⟩ := Prod.mk.injEq .. ▸ h
    cases ha
    rfl
  | cons a rest ih =>
    intro p src rs p2 h
    unfold processRecords at h
    cases ha : p.process_data a src with
    | mk fa pa =>
      rw [ha] at h
      cases fa with
      | error e => simp at h
      | ok r =>
        simp only [] at h
        cases hb : processRecords pa rest src with
        | mk fb pb =>
          simp only [hb] at h
          cases fb with
          | error e => simp at h
          | ok rsb =>
            obtain ⟨hc, _⟩ := Prod.mk.injEq .. ▸ h
            cases hc
            simp [ih pa src rsb pb hb]

/-- C7: when `process_batch` completes without a propagated error, the
counts satisfy `processed = N`, `processed = successful + failed`, the
successful count is exactly the number of success results, the failed
count the number of non-success results, and every non-success result
is a validation quarantine. -/
theorem c7_batch_counts (p : DataPipeline) (records : List Record)
    (src : String) (out : BatchResult) (p2 : DataPipeline)
    (h : process_batch p records src = (.ok out, p2)) :
    ∃ rs, processRecords p records src = (.ok rs, p2)
      ∧ out.processed = records.length
      ∧ out.successful = rs.countP isSuccess
      ∧ out.failed = rs.countP (fun r => !isSuccess r)
      ∧ out.successful + out.failed = out.processed
      ∧ ∀ r ∈ rs, isSuccess r = false → ∃ w, r = ProcessResult.invalid w := by
  unfold process_batch at h
  cases hpr : processRecords p records src with
  | mk f snd =>
    rw [hpr] at h
    cases f with
    | error e => simp at h
    | ok rs =>
      obtain ⟨ha, hb⟩ := Prod.mk.injEq .. ▸ h
      cases ha
      subst hb
      refine ⟨rs, rfl, ?_, rfl, rfl, countP_bool_sum isSuccess rs, ?_⟩
      · exact processRecords_ok_length records p src rs snd hpr
      · intro r _ hfalse
        cases r with
        | invalid w => exact ⟨w, rfl⟩
        | success v fc => simp [isSuccess] at hfalse

/-- C7 witness: scenario C — five records, two invalid, counts 5/3/2. -/
theorem c7_batch_counts_witness :
    ∃ rs, processRecords pricePipeline batchC "pos"
        = (.ok rs, (process_batch pricePipeline batchC "pos").snd)
      ∧ (⟨5, 3, 2⟩ : BatchResult).processed = batchC.length
      ∧ (⟨5, 3, 2⟩ : BatchResult).successful = rs.countP isSuccess
      ∧ (⟨5, 3, 2⟩ : BatchResult).failed
          = rs.countP (fun r => !isSuccess r)
      ∧ (⟨5, 3, 2⟩ : BatchResult).successful
            + (⟨5, 3, 2⟩ : BatchResult).failed
          = (⟨5, 3, 2⟩ : BatchResult).processed
      ∧ ∀ r ∈ rs, isSuccess r = false
          → ∃ w, r = ProcessResult.invalid w :=
  c7_batch_counts pricePipeline batchC "pos" ⟨5, 3, 2⟩ _ rfl

theorem map_replace_absent (fts : List (Field × Transform)) (name : Field)
    (f : Transform) (h : name ∉ fts.map (·.1)) :
    fts.map (fun p => if p.1 = name then (name, f) else p) = fts := by
  induction fts with
  | nil => rfl
  | cons a rest ih =>
    simp only [List.map_cons, List.mem_cons] at h
    push_neg at h
    rw [List.map_cons, if_neg (fun hh => h.1 hh.symm), ih h.2]

theorem map_grow_absent (rules : List (Field × List Rule)) (field : Field)
    (r : Rule) (h : field ∉ rules.map (·.1)) :
    rules.map (fun p => if p.1 = field then (p.1, p.2 ++ [r]) else p)
      = rules := by
  induction rules with
  | nil => rfl
  | cons a rest ih =>
    simp only [List.map_cons, List.mem_cons] at h
    push_neg at h
    rw [List.map_cons, if_neg (fun hh => h.1 hh.symm), ih h.2]

/-- C10: re-registering a feature transform under an existing name
replaces the earlier function (registering twice under one name is the
same as registering only the latest one, so apply evaluates one column
per distinct name), whereas registering a second validation rule for a
field keeps both rules, and both are evaluated — a passing first rule
does not mask a failing duplicate. -/
theorem c10_transform_replaces_rule_appends (fe : FeatureEngineering)
    (name : Field) (f1 f2 : Transform) (dv : DataValidation)
    (field : Field) (r1 r2 : Rule) (d : Record) (v : Value)
    (q : List Record)
    (hname : name ∉ fe.featureNames)
    (hfield : field ∉ dv.ruleFields)
    (hlook : recLookup d field = some v)
    (hr1 : r1 v = .ok true) (hr2 : r2 v = .ok false) :
    ((fe.add_transformation name f1).add_transformation name f2)
        = fe.add_transformation name f2
      ∧ ((dv.add_validation_rule field r1).add_validation_rule
            field r2).validation_rules
          = dv.validation_rules ++ [(field, [r1, r2])]
      ∧ (DataValidation.validate_data ⟨[(field, [r1, r2])], q⟩ d).fst
          = .ok ⟨false, [field], true⟩ := by
  refine ⟨?_, ?_, ?_⟩
  · have h1 : fe.add_transformation name f1
        = { fe with feature_transformations :=
              fe.feature_transformations ++ [(name, f1)] } := by
      unfold FeatureEngineering.add_transformation
      rw [if_neg hname]
    have h2 : fe.add_transformation name f2
        = { fe with feature_transformations :=
              fe.feature_transformations ++ [(name, f2)] } := by
      unfold FeatureEngineering.add_transformation
      rw [if_neg hname]
    rw [h1, h2]
    unfold FeatureEngineering.add_transformation
    rw [if_pos (show name ∈ ({ fe with feature_transformations :=
          fe.feature_transformations ++ [(name, f1)] } :
            FeatureEngineering).featureNames by
        unfold FeatureEngineering.featureNames
        rw [List.map_append]
        exact List.mem_append_right _ (List.mem_cons_self _ _))]
    simp only [List.map_append]
    rw [map_replace_absent fe.feature_transformations name f2 hname]
    simp
  · have h1 : dv.add_validation_rule field r1
        = { dv with validation_rules :=
              dv.validation_rules ++ [(field, [r1])] } := by
      unfold DataValidation.add_validation_rule
      rw [if_neg hfield]
    rw [h1]
    unfold DataValidation.add_validation_rule
    rw [if_pos (show field ∈ ({ dv with validation_rules :=
          dv.validation_rules ++ [(field, [r1])] } :
            DataValidation).ruleFields by
        unfold DataValidation.ruleFields
        rw [List.map_append]
        exact List.mem_append_right _ (List.mem_cons_self _ _))]
    simp only [List.map_append]
    rw [map_grow_absent dv.validation_rules field r2 hfield]
    simp
  · rw [validate_data_fst]
    simp [validateOutcome, validateFields, applyRules, hlook, hr1, hr2]

/-- C10 witness. -/
theorem c10_transform_replaces_rule_appends_witness :
    (((⟨[]⟩ : FeatureEngineering).add_transformation "qty_doubled"
          qtyDoubled).add_transformation "qty_doubled" qtyStrict
        = (⟨[]⟩ : FeatureEngineering).add_transformation "qty_doubled"
            qtyStrict)
      ∧ (((⟨[], []⟩ : DataValidation).add_validation_rule "price"
            alwaysTrue).add_validation_rule "price"
              alwaysFalse).validation_rules
          = (⟨[], []⟩ : DataValidation).validation_rules
              ++ [("price", [alwaysTrue, alwaysFalse])]
      ∧ (DataValidation.validate_data
            ⟨[("price", [alwaysTrue, alwaysFalse])], []⟩ [("price", 1)]).fst
          = .ok ⟨false, ["price"], true⟩ :=
  c10_transform_replaces_rule_appends ⟨[]⟩ "qty_doubled" qtyDoubled
    qtyStrict ⟨[], []⟩ "price" alwaysTrue alwaysFalse [("price", 1)] 1 []
    (by decide) (by decide) rfl rfl rfl

end DataPipelineSpec
